import Mathlib

/-
  Shallow embedding of pyDFCSR_2D/beams.py (class Beam).

  Numbers are modelled by ℚ (exact arithmetic): every quantity in the source is a
  Python float / numpy double and the specification's statements are about the
  exact values computed by the formulas, so the embedding works with the exact
  rational arithmetic of those formulas.

  Fallible code (numpy / scipy exceptions, Python asserts, dict KeyError) is
  modelled by `Except PyErr`.  A function that in Python raises after having
  already mutated `self` is modelled as returning `.error` without producing a
  new beam value; all claims proved below only concern either the success path
  or failures that in the source occur before any mutation of the beam.
-/

namespace PyDFCSR

/-- Errors raised by the Python code and its numpy / scipy library calls.
    `emptyVector`, `lengthMismatch` and `svdNoConvergence` are the exceptions of
    `np.polyfit` (TypeError on an empty x, TypeError on mismatched lengths,
    LinAlgError when the scaled Vandermonde matrix contains NaN because a column
    norm is zero).  `notMonotonic` and `shapeMismatch` are the ValueErrors of the
    `RegularGridInterpolator` constructor (in that order: scipy checks the point
    axes before the value-array shape).  The remaining constructors are the
    construction-time failures of `Beam.__init__` / `Beam.check_inputs`:
    AssertionErrors and the invalid-style Exception (the spec's
    `ConfigurationError` taxonomy), the dict `KeyError`, the loadtxt / ndim
    failures on a malformed coordinate table, a TypeError on a non-string or
    non-numeric configuration value, and `externalCall` marking the two
    construction branches whose behaviour is delegated to external libraries
    (distgen generation, ParticleGroup h5 loading) that are out of scope. -/
inductive PyErr where
  | emptyVector : PyErr
  | lengthMismatch : PyErr
  | svdNoConvergence : PyErr
  | notMonotonic (dim : ℕ) : PyErr
  | shapeMismatch : PyErr
  | keyError (k : String) : PyErr
  | missingStyle : PyErr
  | invalidStyle : PyErr
  | unexpectedParam (k : String) : PyErr
  | missingParam (k : String) : PyErr
  | assertColumns (c : ℕ) : PyErr
  | badTable : PyErr
  | typeErr : PyErr
  | externalCall : PyErr
deriving DecidableEq

/-- Construction-time failures: the errors the specification groups under
    `ConfigurationError` (asserts and the invalid-style Exception raised by
    `check_inputs` / `__init__` on malformed construction input). -/
def PyErr.isConfig : PyErr → Bool
  | .missingStyle => true
  | .invalidStyle => true
  | .unexpectedParam _ => true
  | .missingParam _ => true
  | .assertColumns _ => true
  | .badTable => true
  | _ => false

/-- The bmadx `Particle` named tuple: six per-particle coordinate arrays plus the
    scalars `s`, `p0c`, `mc2` (beams.py always builds it with all six arrays of
    the same length). -/
structure Particle where
  x : List ℚ
  px : List ℚ
  y : List ℚ
  py : List ℚ
  z : List ℚ
  pz : List ℚ
  s : ℚ
  p0c : ℚ
  mc2 : ℚ
deriving DecidableEq

/-- Well-formedness invariant of a particle ensemble: the six coordinate arrays
    have one entry per particle (spec §3). -/
def Particle.wf (p : Particle) : Prop :=
  p.x.length = p.z.length ∧ p.px.length = p.z.length ∧ p.y.length = p.z.length ∧
  p.py.length = p.z.length ∧ p.pz.length = p.z.length

/-- The electron rest energy in eV.  Modelled from the spec: the constant `MC2`
    is imported from the repository's `physical_constants` module, which is not
    among the shown sources; the spec (§3) only says it is the rest-mass energy
    constant in eV, fixed for the ensemble's lifetime.  Its numerical value is
    irrelevant to every claim below. -/
def MC2 : ℚ := 51099895/100

/-- Exact-arithmetic model of `np.polyfit(z, x, deg=1)` as called by
    `Beam.slope`.  numpy builds the Vandermonde matrix `[[z_i, 1]]`, scales each
    column by its Euclidean norm and solves the scaled system by minimum-norm
    least squares (`lstsq`), unscaling the solution.
      * empty `z`: numpy raises TypeError (expected non-empty vector);
      * `len(z) ≠ len(x)`: numpy raises TypeError (same-length check);
      * full rank (the columns independent, i.e. the z values not all equal,
        i.e. `d = n·Σz² − (Σz)² ≠ 0` by the Cauchy–Schwarz equality case):
        the unique least-squares solution, by Cramer on the normal equations;
      * rank 1 with all z equal to `c ≠ 0` (`d = 0`, `Σz ≠ 0`): the scaled
        minimum-norm solution, which unscales to `a = Σx/(2Σz)`, `b = Σx/(2n)`
        (for one point `(z₀, x₀)` with `z₀ ≠ 0` this is `(x₀/(2z₀), x₀/2)`);
      * all z equal to 0: the zero column norm makes the scaled matrix NaN and
        `lstsq` raises LinAlgError (SVD did not converge). -/
def polyfit (z x : List ℚ) : Except PyErr (ℚ × ℚ) :=
  if z.length = 0 then .error .emptyVector
  else if z.length ≠ x.length then .error .lengthMismatch
  else
    let n : ℚ := (z.length : ℚ)
    let Sz : ℚ := z.sum
    let Sx : ℚ := x.sum
    let Szz : ℚ := (z.map fun t => t * t).sum
    let Szx : ℚ := (List.zipWith (· * ·) z x).sum
    let d : ℚ := n * Szz - Sz * Sz
    if d = 0 then
      if Sz = 0 then .error .svdNoConvergence
      else .ok (Sx / (2 * Sz), Sx / (2 * n))
    else .ok ((n * Szx - Sz * Sx) / d, (Sx * Szz - Sz * Szx) / d)

/-- `np.mean` (numpy returns NaN on an empty array; the ensembles of every
    statement below are nonempty, where `sum/length` is the exact mean). -/
def np_mean (l : List ℚ) : ℚ := l.sum / (l.length : ℚ)

/-- The square of `np.std` (population standard deviation).  `np.std` itself is
    the nonnegative square root of this quantity; caching the square is an
    equivalent representation of the cached statistic, since squaring is a
    bijection on nonnegative reals. -/
def np_var (l : List ℚ) : ℚ := ((l.map fun t => (t - np_mean l) ^ 2).sum) / (l.length : ℚ)

/-- The derived statistics cached by `Beam.update_status`: `_sigma_x`,
    `_sigma_z` (stored here as their squares, see `np_var`), `_slope`,
    `_mean_x`, `_mean_z`. -/
structure Stats where
  sigma_x_sq : ℚ
  sigma_z_sq : ℚ
  slope : ℚ × ℚ
  mean_x : ℚ
  mean_z : ℚ
deriving DecidableEq

/-- `Beam.update_status`: recompute every cached statistic from the current
    particle arrays.  The only fallible step is the `np.polyfit` call behind
    `self._slope = self.slope`. -/
def update_status (p : Particle) : Except PyErr Stats :=
  match polyfit p.z p.x with
  | .error e => .error e
  | .ok s => .ok ⟨np_var p.x, np_var p.z, s, np_mean p.x, np_mean p.z⟩

/-- The `Beam` object: the bmadx particle, the path position and step counter
    used during CSR computations, the construction-time scalars `_init_energy`
    and `_charge`, and the cached statistics written by `update_status`.
    (`input_beam_config`, `style` and `_init_gamma = _init_energy/MC2` are also
    stored by `__init__` but are never read by the operations modelled here.) -/
structure Beam where
  particle : Particle
  position : ℚ
  step : ℕ
  init_energy : ℚ
  charge : ℚ
  stats : Stats
deriving DecidableEq

/-- The `Beam.slope` property: `np.polyfit(self.z, self.x, deg=1)`, returning
    `(a, b)` with fit `f(z) = a·z + b`. -/
def Beam.slope (b : Beam) : Except PyErr (ℚ × ℚ) :=
  polyfit b.particle.z b.particle.x

/-- The `Beam.x_transform` property: `self.x - np.polyval(self.slope, self.z)`,
    i.e. the x coordinates with the linear x-z chirp removed. -/
def Beam.x_transform (b : Beam) : Except PyErr (List ℚ) :=
  match Beam.slope b with
  | .error e => .error e
  | .ok s => .ok (List.zipWith (fun xi zi => xi - (s.1 * zi + s.2)) b.particle.x b.particle.z)

/-- The `Beam.energy` property: `(self.particle.pz + 1) * self.particle.p0c`,
    elementwise over the ensemble. -/
def Beam.energy (b : Beam) : List ℚ :=
  b.particle.pz.map fun pz => (pz + 1) * b.particle.p0c

/-- The `Beam.gamma` property: `self.energy / MC2`, elementwise. -/
def Beam.gamma (b : Beam) : List ℚ :=
  b.energy.map fun e => e / MC2

/-- `Beam.track(element, step_size, update_step)`: delegate the coordinate
    transport to the external `bmadx.track_element` (here an opaque function
    argument `track_element`), add `step_size` to the position, bump the step
    counter only when `update_step` is true, and refresh the cached
    statistics. -/
def track (track_element : Particle → Particle) (step_size : ℚ) (update_step : Bool)
    (b : Beam) : Except PyErr Beam :=
  let p' := track_element b.particle
  match update_status p' with
  | .error e => .error e
  | .ok st =>
      .ok { b with particle := p',
                   position := b.position + step_size,
                   step := if update_step then b.step + 1 else b.step,
                   stats := st }

/-- Strict ascent of a 1-D axis array.  scipy's `_check_points` accepts each
    axis strictly ascending or strictly descending (flipping descending ones);
    the repository's CSR meshes, per the spec's WakeGrid invariant, are strictly
    increasing, so only the ascending case is modelled. -/
def strictAsc : List ℚ → Bool
  | [] => true
  | [_] => true
  | a :: b :: t => decide (a < b) && strictAsc (b :: t)

/-- Shape check of `RegularGridInterpolator._check_dimensionality`: the value
    array must have shape `(len(xs), len(zs))`. -/
def shapeOk (vals : List (List ℚ)) (nx nz : ℕ) : Bool :=
  vals.length = nx && vals.all fun row => row.length = nz

/-- A constructed `RegularGridInterpolator((xs, zs), vals, fill_value=0.0,
    bounds_error=False)` (method `linear`, the default). -/
structure RGI where
  xs : List ℚ
  zs : List ℚ
  vals : List (List ℚ)
deriving DecidableEq

/-- The `RegularGridInterpolator` constructor: scipy first validates the point
    axes (strictly monotonic), then the value-array shape against the axis
    lengths, raising ValueError for whichever fails first. -/
def mkRGI (xs zs : List ℚ) (vals : List (List ℚ)) : Except PyErr RGI :=
  if ¬ strictAsc xs then .error (.notMonotonic 0)
  else if ¬ strictAsc zs then .error (.notMonotonic 1)
  else if ¬ shapeOk vals xs.length zs.length then .error .shapeMismatch
  else .ok ⟨xs, zs, vals⟩

/-- scipy's cell search `np.searchsorted(axis, q, side="right") - 1`, clipped to
    `[0, len(axis) - 2]`: for an ascending axis the searchsorted count is the
    number of axis entries `≤ q` (ℕ subtraction supplies the lower clip). -/
def searchIdx (axis : List ℚ) (q : ℚ) : ℕ :=
  min (axis.length - 2) ((axis.countP fun a => decide (a ≤ q)) - 1)

/-- The normalized distance of `q` from the lower edge of cell `i` of `axis`. -/
def cellWeight (axis : List ℚ) (i : ℕ) (q : ℚ) : ℚ :=
  (q - axis.getD i 0) / (axis.getD (i + 1) 0 - axis.getD i 0)

/-- Out-of-bounds test of `RegularGridInterpolator.__call__`: the query is out
    of bounds when it falls outside `[axis[0], axis[-1]]` in either dimension;
    for strictly ascending axes this box is exactly the convex hull of the grid
    nodes. -/
def outOfBounds (g : RGI) (qx qz : ℚ) : Bool :=
  decide (qx < g.xs.getD 0 0) || decide (qx > (g.xs.getLast?.getD 0)) ||
  decide (qz < g.zs.getD 0 0) || decide (qz > (g.zs.getLast?.getD 0))

/-- Evaluation of the interpolator at one query point: `fill_value = 0.0` out of
    bounds (`bounds_error=False`), bilinear interpolation on the containing cell
    otherwise (`method='linear'`, scipy's `_evaluate_linear` in 2 dimensions). -/
def rgiEval (g : RGI) (qx qz : ℚ) : ℚ :=
  if outOfBounds g qx qz then 0
  else
    let i := searchIdx g.xs qx
    let j := searchIdx g.zs qz
    let tx := cellWeight g.xs i qx
    let tz := cellWeight g.zs j qz
    let v00 := (g.vals.getD i []).getD j 0
    let v01 := (g.vals.getD i []).getD (j + 1) 0
    let v10 := (g.vals.getD (i + 1) []).getD j 0
    let v11 := (g.vals.getD (i + 1) []).getD (j + 1) 0
    (1 - tx) * (1 - tz) * v00 + (1 - tx) * tz * v01 + tx * (1 - tz) * v10 + tx * tz * v11

/-- The unit conversion of `apply_wakes`: `step_size * field * 1e6 /
    self.init_energy`, applied to every mesh cell. -/
def scaleGrid (step_size E : ℚ) (g : List (List ℚ)) : List (List ℚ) :=
  g.map fun row => row.map fun v => step_size * v * 1000000 / E

/-- `Beam.apply_wakes(dE_dct, x_kick, xrange, zrange, step_size, transverse_on)`:
    convert `dE_dct` per cell, build the interpolator over `(xrange, zrange)`
    (scipy's constructor checks raise here), evaluate it at every particle's
    `(x_transform, z)` pair (the `self.x_transform` property call runs
    `np.polyfit`, which raises here on a degenerate ensemble), add the result to
    `pz`; with `transverse_on` repeat for `x_kick` adding to `px`; then rebuild
    the Particle with only `px`/`pz` replaced and refresh the statistics.
    In the source the statistics refresh runs after the particle replacement and
    cannot fail there (its `polyfit` call received the same `z`, `x` arrays that
    `x_transform` already fitted successfully). -/
def apply_wakes (dE_dct x_kick : List (List ℚ)) (xrange zrange : List ℚ)
    (step_size : ℚ) (transverse_on : Bool) (b : Beam) : Except PyErr Beam :=
  let dE_E1 := scaleGrid step_size b.init_energy dE_dct
  match mkRGI xrange zrange dE_E1 with
  | .error e => .error e
  | .ok interp =>
    match Beam.x_transform b with
    | .error e => .error e
    | .ok xt =>
      let dE_Es := List.zipWith (fun xi zi => rgiEval interp xi zi) xt b.particle.z
      let pz_new := List.zipWith (· + ·) b.particle.pz dE_Es
      let px_res : Except PyErr (List ℚ) :=
        if transverse_on then
          let dxp := scaleGrid step_size b.init_energy x_kick
          match mkRGI xrange zrange dxp with
          | .error e => .error e
          | .ok interp2 =>
            let dxps := List.zipWith (fun xi zi => rgiEval interp2 xi zi) xt b.particle.z
            .ok (List.zipWith (· + ·) b.particle.px dxps)
        else .ok b.particle.px
      match px_res with
      | .error e => .error e
      | .ok px_new =>
        let p' : Particle := ⟨b.particle.x, px_new, b.particle.y, b.particle.py,
                              b.particle.z, pz_new, b.particle.s, b.particle.p0c,
                              b.particle.mc2⟩
        match update_status p' with
        | .error e => .error e
        | .ok st => .ok { b with particle := p', stats := st }

/-- A value of the `input_beam` configuration dictionary.  The simulation only
    ever stores strings (style tags, file paths) and numbers (charge, energy)
    in it, so the model restricts dictionary values to these two shapes. -/
inductive BVal where
  | str (s : String) : BVal
  | num (q : ℚ) : BVal
deriving DecidableEq

/-- The `input_beam` dictionary, as an association list in insertion order
    (Python dict keys are unique and iterate in insertion order; the concrete
    dictionaries of every statement below are duplicate-free). -/
abbrev InputBeam := List (String × BVal)

/-- Python `input_beam[k]`: the first binding of `k`, or a `KeyError`. -/
def lookupB (d : InputBeam) (k : String) : Except PyErr BVal :=
  match d.find? fun kv => kv.1 = k with
  | some kv => .ok kv.2
  | none => .error (.keyError k)

/-- Python `k in input_beam`. -/
def hasKey (d : InputBeam) (k : String) : Bool :=
  d.any fun kv => kv.1 = k

/-- The `required_inputs` list chosen by `Beam.check_inputs` for each input
    style, `none` for an unrecognized style tag. -/
def required_inputs_for (s : String) : Option (List String) :=
  if s = "from_file" then some ["style", "beamfile", "charge", "energy"]
  else if s = "distgen" then some ["style", "distgen_input_file"]
  else if s = "ParticleGroup" then some ["style", "particleGroup_h5"]
  else none

/-- `Beam.check_inputs(input_beam)`: assert the `style` key is present, select
    the required-input list from the style tag (raising on an unrecognized tag),
    assert every present key is allowed (`required_inputs + ['verbose']`), then
    assert every required key is present.  Returns the required-input list the
    Python code stores in `self.required_inputs`. -/
def check_inputs (d : InputBeam) : Except PyErr (List String) :=
  if ¬ hasKey d "style" then .error .missingStyle
  else
    match lookupB d "style" with
    | .error e => .error e
    | .ok sv =>
      match (match sv with | .str s => required_inputs_for s | .num _ => none) with
      | none => .error .invalidStyle
      | some req =>
        let allowed := req ++ ["verbose"]
        match (d.map Prod.fst).find? (fun k => ! (allowed.contains k)) with
        | some k => .error (.unexpectedParam k)
        | none =>
          match req.find? (fun r => ! hasKey d r) with
          | some r => .error (.missingParam r)
          | none => .ok req

/-- The 2-D shape `(rows, cols)` that `np.loadtxt` hands to `coords.shape`,
    `none` when `coords.shape[1]` is unavailable: an empty or single-row file is
    squeezed below 2 dimensions (IndexError on `shape[1]`), and a ragged file
    already fails inside `loadtxt`. -/
def loadtxtShape (t : List (List ℚ)) : Option (ℕ × ℕ) :=
  match t with
  | [] => none
  | [_] => none
  | r :: rs => if rs.all (fun row => row.length = r.length) then some (t.length, r.length) else none

/-- Column `i` of the coordinate table (`coords.T[i]`). -/
def column (t : List (List ℚ)) (i : ℕ) : List ℚ :=
  t.map fun row => row.getD i 0

/-- `Beam.__init__(input_beam)`.  `files` stands for the filesystem: the table
    `np.loadtxt` returns for a file name.  After `check_inputs`, the code
    branches on the style tag:
      * `from_file`: load the table, assert it has exactly 6 columns, build the
        bmadx Particle from the 6 transposed columns with `s = 0`,
        `p0c = energy`, `mc2 = MC2`, store `_charge` and `_init_energy` from the
        dictionary, initialize `position = 0`, `step = 0`, and run
        `update_status`;
      * `distgen`: delegated to the external distgen Generator (out of scope);
      * otherwise (the `ParticleGroup` style, the only other tag that survives
        `check_inputs`): read `input_beam['ParticleGroup_h5']` — note the
        capitalized key, while `check_inputs` validated the lowercase
        `particleGroup_h5` — then delegate to the external ParticleGroup h5
        loader (out of scope; unreachable for validated inputs, since the
        capitalized key is never allowed by validation and the lookup raises
        KeyError first). -/
def beam_init (files : String → List (List ℚ)) (d : InputBeam) : Except PyErr Beam :=
  match check_inputs d with
  | .error e => .error e
  | .ok _ =>
    match lookupB d "style" with
    | .error e => .error e
    | .ok sv =>
      if sv = .str "from_file" then
        match lookupB d "beamfile" with
        | .error e => .error e
        | .ok (.num _) => .error .typeErr
        | .ok (.str fname) =>
          let coords := files fname
          match loadtxtShape coords with
          | none => .error .badTable
          | some (_, cols) =>
            if cols ≠ 6 then .error (.assertColumns cols)
            else
              match lookupB d "charge", lookupB d "energy" with
              | .ok (.num q), .ok (.num E) =>
                let p : Particle := ⟨column coords 0, column coords 1, column coords 2,
                                     column coords 3, column coords 4, column coords 5,
                                     0, E, MC2⟩
                match update_status p with
                | .error e => .error e
                | .ok st => .ok ⟨p, 0, 0, E, q, st⟩
              | _, _ => .error .typeErr
      else if sv = .str "distgen" then .error .externalCall
      else
        match lookupB d "ParticleGroup_h5" with
        | .error e => .error e
        | .ok _ => .error .externalCall

/-! Concrete instances used by the witness and counterexample theorems. -/

/-- The spec's end-to-end scenario: 3 particles at `z = [-1,0,1]`,
    `x = [-1,0,1]` (perfectly correlated, slope 1, intercept 0), reference
    energy `1e6` eV. -/
def particle3 : Particle :=
  ⟨[-1, 0, 1], [0, 0, 0], [0, 0, 0], [0, 0, 0], [-1, 0, 1], [0, 0, 0], 0, 1000000, MC2⟩

/-- The cached statistics of `particle3` (σ² = 2/3 in x and z, slope (1,0),
    zero means), as `update_status` computes them. -/
def stats3 : Stats := ⟨2/3, 2/3, (1, 0), 0, 0⟩

def beam3 : Beam := ⟨particle3, 0, 0, 1000000, 1, stats3⟩

/-- `beam3` after the constant-1 wake of the spec's scenario: only `pz` changed,
    to `[1,1,1]`; the cached statistics do not involve `pz` and are unchanged. -/
def beam3' : Beam :=
  ⟨⟨[-1, 0, 1], [0, 0, 0], [0, 0, 0], [0, 0, 0], [-1, 0, 1], [1, 1, 1], 0, 1000000, MC2⟩,
   0, 0, 1000000, 1, stats3⟩

/-- A constant `dE_dct = 1.0` wake grid on the 2×2 mesh `[-2,2] × [-2,2]`. -/
def ones22 : List (List ℚ) := [[1, 1], [1, 1]]

/-- A zero transverse-kick grid on the same mesh. -/
def zeros22 : List (List ℚ) := [[0, 0], [0, 0]]

/-- A single-particle ensemble (`N = 1 < 2`) with nonzero z. -/
def particle1 : Particle := ⟨[2], [0], [0], [0], [2], [0], 0, 1000000, MC2⟩

def beam1 : Beam := ⟨particle1, 0, 0, 1000000, 1, ⟨0, 0, (1/2, 1), 2, 2⟩⟩

/-- The empty ensemble (`N = 0`).  `Beam.__init__` can never finish building
    such a beam (its statistics refresh raises), but the `slope` query is still
    a well-defined computation on its arrays. -/
def particle0 : Particle := ⟨[], [], [], [], [], [], 0, 1000000, MC2⟩

def beam0 : Beam := ⟨particle0, 0, 0, 1000000, 1, ⟨0, 0, (0, 0), 0, 0⟩⟩

/-- An ensemble whose first particle sits at `z = 5`, outside the
    `[-2,2] × [-2,2]` wake mesh (its de-chirped x is 0: the x data is constant
    zero, so the fitted line is `0·z + 0`). -/
def particleOut : Particle :=
  ⟨[0, 0], [3, 4], [0, 0], [0, 0], [5, 0], [7, 0], 0, 1000000, MC2⟩

def beamOut : Beam := ⟨particleOut, 0, 0, 1000000, 1, ⟨0, 25/4, (0, 0), 0, 5/2⟩⟩

/-- A filesystem whose every file is a 5-column coordinate table. -/
def files5 : String → List (List ℚ) := fun _ => [[0, 0, 0, 0, 0], [1, 1, 1, 1, 1]]

/-- A complete, well-formed `from_file` configuration dictionary. -/
def d_ff : InputBeam :=
  [("style", .str "from_file"), ("beamfile", .str "beam.dat"),
   ("charge", .num 1), ("energy", .num 1000000)]

/-- The same dictionary with the required `energy` field missing. -/
def d_miss : InputBeam :=
  [("style", .str "from_file"), ("beamfile", .str "beam.dat"), ("charge", .num 1)]

/-- The same dictionary with an unrecognized extra field. -/
def d_extra : InputBeam :=
  [("style", .str "from_file"), ("beamfile", .str "beam.dat"),
   ("charge", .num 1), ("energy", .num 1000000), ("extra", .num 0)]

/-- A `ParticleGroup` configuration dictionary whose keys are exactly the two
    fields `check_inputs` requires for that style. -/
def d_pg : InputBeam :=
  [("style", .str "ParticleGroup"), ("particleGroup_h5", .str "beam.h5")]

/-! Helper lemmas. -/

/-- Sum of the de-chirping residuals `xᵢ - (a·zᵢ + c)` over paired lists. -/
lemma resid_sum (a c : ℚ) :
    ∀ (x z : List ℚ), x.length = z.length →
      (List.zipWith (fun xi zi => xi - (a * zi + c)) x z).sum
        = x.sum - a * z.sum - (z.length : ℚ) * c := by
  intro x
  induction x with
  | nil =>
      intro z h
      have hz : z = [] := by
        cases z with
        | nil => rfl
        | cons _ _ => simp at h
      subst hz; simp
  | cons x0 xs ih =>
      intro z h
      cases z with
      | nil => simp at h
      | cons z0 zs =>
          have h' : xs.length = zs.length := by simpa using h
          simp only [List.zipWith_cons_cons, List.sum_cons, ih zs h', List.length_cons]
          push_cast
          ring

/-- Weighted (by z) sum of the de-chirping residuals over paired lists. -/
lemma resid_dot (a c : ℚ) :
    ∀ (x z : List ℚ), x.length = z.length →
      (List.zipWith (· * ·) z (List.zipWith (fun xi zi => xi - (a * zi + c)) x z)).sum
        = (List.zipWith (· * ·) z x).sum - a * (z.map fun t => t * t).sum - c * z.sum := by
  intro x
  induction x with
  | nil =>
      intro z h
      have hz : z = [] := by
        cases z with
        | nil => rfl
        | cons _ _ => simp at h
      subst hz; simp
  | cons x0 xs ih =>
      intro z h
      cases z with
      | nil => simp at h
      | cons z0 zs =>
          have h' : xs.length = zs.length := by simpa using h
          simp only [List.zipWith_cons_cons, List.sum_cons, List.map_cons, ih zs h']
          ring

/-- Pointwise description of `zipWith` through `getD`, inside the common
    length. -/
lemma zipWith_getD (f : ℚ → ℚ → ℚ) :
    ∀ (x z : List ℚ) (i : ℕ), i < x.length → i < z.length →
      (List.zipWith f x z).getD i 0 = f (x.getD i 0) (z.getD i 0) := by
  intro x
  induction x with
  | nil => intro z i h1 _; simp at h1
  | cons x0 xs ih =>
      intro z i h1 h2
      cases z with
      | nil => simp at h2
      | cons z0 zs =>
          cases i with
          | zero => simp
          | succ n =>
              simp only [List.zipWith_cons_cons, List.getD_cons_succ]
              exact ih zs n (by simpa using h1) (by simpa using h2)

/-- The unit conversion preserves the mesh shape. -/
lemma shapeOk_scaleGrid (s E : ℚ) (g : List (List ℚ)) (nx nz : ℕ) :
    shapeOk (scaleGrid s E g) nx nz = shapeOk g nx nz := by
  simp [shapeOk, scaleGrid, List.all_map, Function.comp_def]

/-- The interpolator constructor succeeds on strictly ascending axes and a
    matching value shape. -/
lemma mkRGI_ok {xs zs : List ℚ} {vals : List (List ℚ)}
    (hx : strictAsc xs = true) (hz : strictAsc zs = true)
    (hs : shapeOk vals xs.length zs.length = true) :
    mkRGI xs zs vals = .ok ⟨xs, zs, vals⟩ := by
  simp [mkRGI, hx, hz, hs]

/-- Pointwise description of `map` through `getD`, inside the length. -/
lemma getD_map (f : ℚ → ℚ) (l : List ℚ) (i : ℕ) (h : i < l.length) :
    (l.map f).getD i 0 = f (l.getD i 0) := by
  induction l generalizing i with
  | nil => simp at h
  | cons a t ih =>
      cases i with
      | zero => simp
      | succ n =>
          simp only [List.map_cons, List.getD_cons_succ]
          exact ih n (by simpa using h)

/-! Claim theorems. -/

/-- C4: for every ensemble, the per-particle energy accessor returns
    `(pz + 1) * p0c` and the per-particle gamma accessor returns
    `energy / mc2`, exactly (affine, not linear, in pz), for every particle. -/
theorem energy_gamma_affine (b : Beam) (i : ℕ) (h : i < b.particle.pz.length) :
    b.energy.getD i 0 = (b.particle.pz.getD i 0 + 1) * b.particle.p0c ∧
    b.gamma.getD i 0 = b.energy.getD i 0 / MC2 := by
  constructor
  · simp only [Beam.energy]
    exact getD_map _ _ _ h
  · simp only [Beam.gamma]
    exact getD_map _ _ _ (by simpa [Beam.energy] using h)

/-- Witness for C4: the first particle of the spec's 3-particle scenario. -/
theorem energy_gamma_affine_witness :
    0 < beam3.particle.pz.length ∧
    (beam3.energy.getD 0 0 = (beam3.particle.pz.getD 0 0 + 1) * beam3.particle.p0c ∧
     beam3.gamma.getD 0 0 = beam3.energy.getD 0 0 / MC2) :=
  ⟨by decide, energy_gamma_affine beam3 0 (by decide)⟩

/-- C9: a tracking step adds exactly the step length to the position, bumps the
    step counter exactly when `update_step` is true (so two half-element
    transports with `update_step = false` do not double-count), and refreshes
    the cached statistics so that they are the statistics of the post-step
    coordinates. -/
theorem track_advance (tr : Particle → Particle) (L : ℚ) (u : Bool) (b b' : Beam)
    (h : track tr L u b = .ok b') :
    b'.position = b.position + L ∧
    b'.step = (if u then b.step + 1 else b.step) ∧
    b'.particle = tr b.particle ∧
    update_status b'.particle = .ok b'.stats := by
  unfold track at h
  cases hs : update_status (tr b.particle) with
  | error e => simp [hs] at h
  | ok st =>
      simp only [hs] at h
      rw [Except.ok.injEq] at h
      subst h
      exact ⟨rfl, rfl, rfl, hs⟩

/-- Witness for C9: tracking `beam3` through an identity transport with a full
    step of length 1. -/
theorem track_advance_witness :
    ∃ b', track (fun p => p) 1 true beam3 = .ok b' ∧
      b'.position = beam3.position + 1 ∧ b'.step = beam3.step + 1 := by
  have h : track (fun p => p) 1 true beam3 =
      .ok ⟨particle3, 1, 1, 1000000, 1, stats3⟩ := by
    norm_num [track, update_status, polyfit, np_var, np_mean, beam3, particle3, stats3]
  have hc := track_advance (fun p => p) 1 true beam3 _ h
  exact ⟨_, h, hc.1, by simpa using hc.2.1⟩

/-- C5: `apply_wakes` leaves the position coordinates x, y, z, the path
    coordinate s, the momentum py and the beamline position unchanged for every
    particle, and when the transverse kick is disabled it also leaves px
    unchanged (only pz may change). -/
theorem wakes_preserve_positions (dE xk : List (List ℚ)) (xr zr : List ℚ) (L : ℚ)
    (t : Bool) (b b' : Beam)
    (h : apply_wakes dE xk xr zr L t b = .ok b') :
    b'.particle.x = b.particle.x ∧ b'.particle.y = b.particle.y ∧
    b'.particle.z = b.particle.z ∧ b'.particle.s = b.particle.s ∧
    b'.particle.py = b.particle.py ∧ b'.position = b.position ∧
    (t = false → b'.particle.px = b.particle.px) := by
  simp only [apply_wakes] at h
  cases h1 : mkRGI xr zr (scaleGrid L b.init_energy dE) with
  | error e => simp [h1] at h
  | ok g =>
      simp only [h1] at h
      cases h2 : Beam.x_transform b with
      | error e => simp [h2] at h
      | ok xt =>
          simp only [h2] at h
          cases t with
          | false =>
              simp only [Bool.false_eq_true, if_false] at h
              cases h3 : update_status ⟨b.particle.x, b.particle.px, b.particle.y,
                  b.particle.py, b.particle.z,
                  List.zipWith (· + ·) b.particle.pz
                    (List.zipWith (fun xi zi => rgiEval g xi zi) xt b.particle.z),
                  b.particle.s, b.particle.p0c, b.particle.mc2⟩ with
              | error e => simp [h3] at h
              | ok st =>
                  simp only [h3] at h
                  rw [Except.ok.injEq] at h
                  subst h
                  exact ⟨rfl, rfl, rfl, rfl, rfl, rfl, fun _ => rfl⟩
          | true =>
              simp only [if_true] at h
              cases h4 : mkRGI xr zr (scaleGrid L b.init_energy xk) with
              | error e => simp [h4] at h
              | ok g2 =>
                  simp only [h4] at h
                  cases h3 : update_status ⟨b.particle.x,
                      List.zipWith (· + ·) b.particle.px
                        (List.zipWith (fun xi zi => rgiEval g2 xi zi) xt b.particle.z),
                      b.particle.y, b.particle.py, b.particle.z,
                      List.zipWith (· + ·) b.particle.pz
                        (List.zipWith (fun xi zi => rgiEval g xi zi) xt b.particle.z),
                      b.particle.s, b.particle.p0c, b.particle.mc2⟩ with
                  | error e => simp [h3] at h
                  | ok st =>
                      simp only [h3] at h
                      rw [Except.ok.injEq] at h
                      subst h
                      exact ⟨rfl, rfl, rfl, rfl, rfl, rfl, fun ht => absurd ht (by decide)⟩

/-- Witness for C5: the spec's scenario, transverse kick off: everything except
    pz survives unchanged. -/
theorem wakes_preserve_positions_witness :
    ∃ b', apply_wakes ones22 zeros22 [-2, 2] [-2, 2] 1 false beam3 = .ok b' ∧
      b'.particle.x = beam3.particle.x ∧ b'.particle.px = beam3.particle.px ∧
      b'.position = beam3.position := by
  have h : apply_wakes ones22 zeros22 [-2, 2] [-2, 2] 1 false beam3 = .ok beam3' := by
    norm_num [apply_wakes, mkRGI, strictAsc, shapeOk, scaleGrid, Beam.x_transform, Beam.slope,
      polyfit, update_status, np_var, np_mean, rgiEval, outOfBounds, searchIdx, cellWeight,
      beam3, beam3', particle3, stats3, ones22, zeros22, List.getD]
  have hc := wakes_preserve_positions ones22 zeros22 [-2, 2] [-2, 2] 1 false beam3 beam3' h
  exact ⟨beam3', h, hc.1, hc.2.2.2.2.2.2 rfl, hc.2.2.2.2.2.1⟩

/-- C2: on a wake grid whose field-array shape does not match
    `(len(xrange), len(zrange))` (the axes being strictly monotonic, per the
    WakeGrid invariant — scipy checks monotonicity first), `apply_wakes` fails
    with the interpolator constructor's shape ValueError and produces no updated
    beam: the ensemble's coordinates and statistics are left unchanged (the
    failure happens before the particle replacement; for `dE_dct` it happens at
    entry, before anything else is computed from the ensemble).  The second
    conjunct covers a mismatched transverse `x_kick` grid. -/
theorem apply_wakes_shape_guard (dE xk : List (List ℚ)) (xr zr : List ℚ) (L : ℚ)
    (t : Bool) (b : Beam)
    (hx : strictAsc xr = true) (hz : strictAsc zr = true) :
    (shapeOk dE xr.length zr.length = false →
      apply_wakes dE xk xr zr L t b = .error .shapeMismatch) ∧
    (∀ s, shapeOk dE xr.length zr.length = true → Beam.slope b = .ok s →
      t = true → shapeOk xk xr.length zr.length = false →
      apply_wakes dE xk xr zr L t b = .error .shapeMismatch) := by
  constructor
  · intro hbad
    have h1 : mkRGI xr zr (scaleGrid L b.init_energy dE) = .error .shapeMismatch := by
      simp [mkRGI, hx, hz, shapeOk_scaleGrid, hbad]
    simp [apply_wakes, h1]
  · intro s hgood hs ht hbad
    subst ht
    have h1 : mkRGI xr zr (scaleGrid L b.init_energy dE) =
        .ok ⟨xr, zr, scaleGrid L b.init_energy dE⟩ :=
      mkRGI_ok hx hz (by rw [shapeOk_scaleGrid]; exact hgood)
    have h2 : Beam.x_transform b = .ok
        (List.zipWith (fun xi zi => xi - (s.1 * zi + s.2)) b.particle.x b.particle.z) := by
      simp [Beam.x_transform, hs]
    have h3 : mkRGI xr zr (scaleGrid L b.init_energy xk) = .error .shapeMismatch := by
      simp [mkRGI, hx, hz, shapeOk_scaleGrid, hbad]
    simp [apply_wakes, h1, h2, h3]

/-- Witness for C2: a 1×2 field array on 2-point axes (`shape (1,2) ≠ (2,2)`). -/
theorem apply_wakes_shape_guard_witness :
    apply_wakes [[1, 1]] zeros22 [-2, 2] [-2, 2] 1 false beam3 = .error .shapeMismatch :=
  (apply_wakes_shape_guard [[1, 1]] zeros22 [-2, 2] [-2, 2] 1 false beam3
    (by decide) (by decide)).1 (by decide)

/-- Success-path characterization of `apply_wakes`: with well-formed grids and
    a successful chirp fit it returns an updated beam whose pz (and, with the
    transverse kick on, px) arrays are the old arrays plus the interpolated
    kicks at the `(x_transform, z)` pairs.  Shared backbone of the theorems for
    the wake-application claims. -/
lemma apply_wakes_success (dE xk : List (List ℚ)) (xr zr : List ℚ) (L : ℚ)
    (t : Bool) (b : Beam) (s : ℚ × ℚ)
    (hx : strictAsc xr = true) (hz : strictAsc zr = true)
    (hshape : shapeOk dE xr.length zr.length = true)
    (hs : Beam.slope b = .ok s)
    (hk : t = true → shapeOk xk xr.length zr.length = true) :
    ∃ b', apply_wakes dE xk xr zr L t b = .ok b' ∧
      b'.particle.pz = List.zipWith (· + ·) b.particle.pz
        (List.zipWith
          (fun xi zi => rgiEval ⟨xr, zr, scaleGrid L b.init_energy dE⟩ xi zi)
          (List.zipWith (fun xi zi => xi - (s.1 * zi + s.2)) b.particle.x b.particle.z)
          b.particle.z) ∧
      (t = false → b'.particle.px = b.particle.px) ∧
      (t = true → b'.particle.px = List.zipWith (· + ·) b.particle.px
        (List.zipWith
          (fun xi zi => rgiEval ⟨xr, zr, scaleGrid L b.init_energy xk⟩ xi zi)
          (List.zipWith (fun xi zi => xi - (s.1 * zi + s.2)) b.particle.x b.particle.z)
          b.particle.z)) := by
  have hpoly : polyfit b.particle.z b.particle.x = .ok s := hs
  have h1 : mkRGI xr zr (scaleGrid L b.init_energy dE) =
      .ok ⟨xr, zr, scaleGrid L b.init_energy dE⟩ :=
    mkRGI_ok hx hz (by rw [shapeOk_scaleGrid]; exact hshape)
  have h2 : Beam.x_transform b = .ok
      (List.zipWith (fun xi zi => xi - (s.1 * zi + s.2)) b.particle.x b.particle.z) := by
    simp [Beam.x_transform, hs]
  cases t with
  | false =>
      refine ⟨⟨⟨b.particle.x, b.particle.px, b.particle.y, b.particle.py, b.particle.z,
          List.zipWith (· + ·) b.particle.pz
            (List.zipWith
              (fun xi zi => rgiEval ⟨xr, zr, scaleGrid L b.init_energy dE⟩ xi zi)
              (List.zipWith (fun xi zi => xi - (s.1 * zi + s.2)) b.particle.x b.particle.z)
              b.particle.z),
          b.particle.s, b.particle.p0c, b.particle.mc2⟩,
          b.position, b.step, b.init_energy, b.charge,
          ⟨np_var b.particle.x, np_var b.particle.z, s, np_mean b.particle.x,
           np_mean b.particle.z⟩⟩, ?_, rfl, fun _ => rfl, fun h => absurd h (by decide)⟩
      simp only [apply_wakes, h1, h2, Bool.false_eq_true, if_false, update_status, hpoly]
  | true =>
      have h3 : mkRGI xr zr (scaleGrid L b.init_energy xk) =
          .ok ⟨xr, zr, scaleGrid L b.init_energy xk⟩ :=
        mkRGI_ok hx hz (by rw [shapeOk_scaleGrid]; exact hk rfl)
      refine ⟨⟨⟨b.particle.x,
          List.zipWith (· + ·) b.particle.px
            (List.zipWith
              (fun xi zi => rgiEval ⟨xr, zr, scaleGrid L b.init_energy xk⟩ xi zi)
              (List.zipWith (fun xi zi => xi - (s.1 * zi + s.2)) b.particle.x b.particle.z)
              b.particle.z),
          b.particle.y, b.particle.py, b.particle.z,
          List.zipWith (· + ·) b.particle.pz
            (List.zipWith
              (fun xi zi => rgiEval ⟨xr, zr, scaleGrid L b.init_energy dE⟩ xi zi)
              (List.zipWith (fun xi zi => xi - (s.1 * zi + s.2)) b.particle.x b.particle.z)
              b.particle.z),
          b.particle.s, b.particle.p0c, b.particle.mc2⟩,
          b.position, b.step, b.init_energy, b.charge,
          ⟨np_var b.particle.x, np_var b.particle.z, s, np_mean b.particle.x,
           np_mean b.particle.z⟩⟩, ?_, rfl, fun h => absurd h (by decide), fun _ => rfl⟩
      simp only [apply_wakes, h1, h2, h3, if_true, update_status, hpoly]

/-- C1: when the wake grid is well-formed and the chirp fit succeeds,
    `apply_wakes` updates each particle's pz to `pz + I(dechirpedX, z)`, where
    `I` is the piecewise-bilinear interpolant (zero outside the mesh) of the
    converted field `step_size * dE_dct * 1e6 / init_energy` over
    `(xrange, zrange)`, evaluated at the particle's `(x_transform, z)` pair —
    not raw x. -/
theorem apply_wakes_pz_kick (dE xk : List (List ℚ)) (xr zr : List ℚ) (L : ℚ)
    (t : Bool) (b : Beam) (s : ℚ × ℚ)
    (hx : strictAsc xr = true) (hz : strictAsc zr = true)
    (hshape : shapeOk dE xr.length zr.length = true)
    (hs : Beam.slope b = .ok s)
    (hk : t = true → shapeOk xk xr.length zr.length = true) :
    ∃ xt b', Beam.x_transform b = .ok xt ∧
      apply_wakes dE xk xr zr L t b = .ok b' ∧
      b'.particle.pz = List.zipWith (· + ·) b.particle.pz
        (List.zipWith
          (fun xi zi => rgiEval ⟨xr, zr, scaleGrid L b.init_energy dE⟩ xi zi)
          xt b.particle.z) := by
  obtain ⟨b', hok, hpz, _, _⟩ := apply_wakes_success dE xk xr zr L t b s hx hz hshape hs hk
  exact ⟨_, b', by simp [Beam.x_transform, hs], hok, hpz⟩

/-- Witness for C1: the spec's end-to-end scenario — 3 perfectly correlated
    particles, constant `dE_dct = 1.0` on `[-2,2] × [-2,2]`, `step_size = 1`,
    `init_energy = 1e6` eV: every particle's pz increases by exactly 1. -/
theorem apply_wakes_pz_kick_witness :
    ∃ xt b', Beam.x_transform beam3 = .ok xt ∧
      apply_wakes ones22 zeros22 [-2, 2] [-2, 2] 1 false beam3 = .ok b' ∧
      b'.particle.pz = [1, 1, 1] := by
  obtain ⟨xt, b', hxt, hok, hpz⟩ :=
    apply_wakes_pz_kick ones22 zeros22 [-2, 2] [-2, 2] 1 false beam3 (1, 0)
      (by decide) (by decide) (by decide)
      (by norm_num [Beam.slope, polyfit, beam3, particle3])
      (fun h => absurd h (by decide))
  have hxt' : xt = [0, 0, 0] := by
    have : Beam.x_transform beam3 = .ok [0, 0, 0] := by
      norm_num [Beam.x_transform, Beam.slope, polyfit, beam3, particle3, List.zipWith]
    rw [this] at hxt
    exact (Except.ok.injEq _ _).mp hxt.symm
  refine ⟨xt, b', hxt, hok, ?_⟩
  rw [hpz, hxt']
  norm_num [rgiEval, outOfBounds, searchIdx, cellWeight, scaleGrid, beam3, particle3, ones22,
    List.zipWith, List.getD]

/-- Out-of-bounds queries evaluate to the fill value 0. -/
lemma rgiEval_out (g : RGI) (qx qz : ℚ) (h : outOfBounds g qx qz = true) :
    rgiEval g qx qz = 0 := by
  simp only [rgiEval, h, if_true]

/-- The Bool out-of-bounds test follows from any of the four box violations. -/
lemma outOfBounds_of (g : RGI) (qx qz : ℚ)
    (h : qx < g.xs.getD 0 0 ∨ qx > g.xs.getLast?.getD 0 ∨
         qz < g.zs.getD 0 0 ∨ qz > g.zs.getLast?.getD 0) :
    outOfBounds g qx qz = true := by
  simp only [outOfBounds, Bool.or_eq_true, decide_eq_true_eq]
  tauto

/-- Adding a kick array that vanishes at index `i` does not change entry `i`. -/
lemma getD_add_zero_kick (pz kicks : List ℚ) (i : ℕ) (hlen : pz.length = kicks.length)
    (hk : i < kicks.length → kicks.getD i 0 = 0) :
    (List.zipWith (· + ·) pz kicks).getD i 0 = pz.getD i 0 := by
  by_cases hi : i < kicks.length
  · rw [zipWith_getD _ _ _ i (by rw [hlen]; exact hi) hi, hk hi, add_zero]
  · push_neg at hi
    rw [List.getD_eq_default _ _ (by simp [List.length_zipWith, hlen]; omega),
        List.getD_eq_default _ _ (by omega)]

/-- C3: a particle whose `(x_transform, z)` pair lies outside the convex hull
    of the wake mesh (for strictly ascending axes: the box
    `[xrange[0], xrange[-1]] × [zrange[0], zrange[-1]]`) receives exactly zero
    kick: its pz (and its px, whatever the transverse toggle) is unchanged,
    regardless of the field values, and `apply_wakes` still succeeds — it never
    fails because of out-of-range particle positions. -/
theorem out_of_hull_zero_kick (dE xk : List (List ℚ)) (xr zr : List ℚ) (L : ℚ)
    (t : Bool) (b : Beam) (s : ℚ × ℚ) (xt : List ℚ) (i : ℕ)
    (hx : strictAsc xr = true) (hz : strictAsc zr = true)
    (hshape : shapeOk dE xr.length zr.length = true)
    (hs : Beam.slope b = .ok s)
    (hk : t = true → shapeOk xk xr.length zr.length = true)
    (hwf : b.particle.wf)
    (hxt : Beam.x_transform b = .ok xt)
    (hout : xt.getD i 0 < xr.getD 0 0 ∨ xt.getD i 0 > xr.getLast?.getD 0 ∨
            b.particle.z.getD i 0 < zr.getD 0 0 ∨ b.particle.z.getD i 0 > zr.getLast?.getD 0) :
    ∃ b', apply_wakes dE xk xr zr L t b = .ok b' ∧
      b'.particle.pz.getD i 0 = b.particle.pz.getD i 0 ∧
      b'.particle.px.getD i 0 = b.particle.px.getD i 0 := by
  obtain ⟨b', hok, hpz, hpxf, hpxt⟩ := apply_wakes_success dE xk xr zr L t b s hx hz hshape hs hk
  have h2 : Beam.x_transform b = .ok
      (List.zipWith (fun xi zi => xi - (s.1 * zi + s.2)) b.particle.x b.particle.z) := by
    simp [Beam.x_transform, hs]
  rw [hxt] at h2
  have hxtXT : xt = List.zipWith (fun xi zi => xi - (s.1 * zi + s.2))
      b.particle.x b.particle.z := (Except.ok.injEq _ _).mp h2
  have hXTlen : (List.zipWith (fun xi zi => xi - (s.1 * zi + s.2))
      b.particle.x b.particle.z).length = b.particle.z.length := by
    simp [List.length_zipWith, hwf.1]
  have kick_zero : ∀ (g : RGI), g.xs = xr → g.zs = zr →
      ∀ hi : i < (List.zipWith (fun xi zi => rgiEval g xi zi)
          (List.zipWith (fun xi zi => xi - (s.1 * zi + s.2)) b.particle.x b.particle.z)
          b.particle.z).length,
      (List.zipWith (fun xi zi => rgiEval g xi zi)
          (List.zipWith (fun xi zi => xi - (s.1 * zi + s.2)) b.particle.x b.particle.z)
          b.particle.z).getD i 0 = 0 := by
    intro g hgx hgz hi
    rw [List.length_zipWith, hXTlen, min_self] at hi
    rw [zipWith_getD _ _ _ i (by rw [hXTlen]; exact hi) hi]
    apply rgiEval_out
    apply outOfBounds_of
    rw [hgx, hgz, ← hxtXT]
    exact hout
  have hkicklen : ∀ (g : RGI),
      (List.zipWith (fun xi zi => rgiEval g xi zi)
          (List.zipWith (fun xi zi => xi - (s.1 * zi + s.2)) b.particle.x b.particle.z)
          b.particle.z).length = b.particle.z.length := by
    intro g
    rw [List.length_zipWith, hXTlen, min_self]
  refine ⟨b', hok, ?_, ?_⟩
  · rw [hpz]
    exact getD_add_zero_kick _ _ i (by rw [hkicklen]; exact hwf.2.2.2.2)
      (kick_zero _ rfl rfl)
  · cases t with
    | false => rw [hpxf rfl]
    | true =>
        rw [hpxt rfl]
        exact getD_add_zero_kick _ _ i (by rw [hkicklen]; exact hwf.2.1)
          (kick_zero _ rfl rfl)

/-- Witness for C3: `beamOut`'s first particle sits at `z = 5`, outside the
    `[-2,2] × [-2,2]` mesh carrying a constant nonzero field; its pz and px
    survive the wake application unchanged (transverse kick enabled). -/
theorem out_of_hull_zero_kick_witness :
    ∃ b', apply_wakes ones22 zeros22 [-2, 2] [-2, 2] 1 true beamOut = .ok b' ∧
      b'.particle.pz.getD 0 0 = 7 ∧ b'.particle.px.getD 0 0 = 3 := by
  obtain ⟨b', hok, hpz, hpx⟩ :=
    out_of_hull_zero_kick ones22 zeros22 [-2, 2] [-2, 2] 1 true beamOut (0, 0) [0, 0] 0
      (by decide) (by decide) (by decide)
      (by norm_num [Beam.slope, polyfit, beamOut, particleOut])
      (fun _ => by decide)
      ⟨rfl, rfl, rfl, rfl, rfl⟩
      (by norm_num [Beam.x_transform, Beam.slope, polyfit, beamOut, particleOut, List.zipWith])
      (by decide)
  exact ⟨b', hok, by rw [hpz]; decide, by rw [hpx]; decide⟩

/-- Expansion of the sum of squared deviations from a constant. -/
lemma sum_sq_dev (m : ℚ) : ∀ z : List ℚ,
    (z.map fun t => (t - m) ^ 2).sum
      = (z.map fun t => t * t).sum - 2 * m * z.sum + (z.length : ℚ) * m ^ 2 := by
  intro z
  induction z with
  | nil => simp
  | cons a l ih =>
      simp only [List.map_cons, List.sum_cons, List.length_cons, ih]
      push_cast
      ring

/-- A zero sum of squares forces every term to vanish. -/
lemma eq_of_sum_sq_zero : ∀ (z : List ℚ) (m : ℚ),
    (z.map fun t => (t - m) ^ 2).sum = 0 → ∀ t ∈ z, t = m := by
  intro z
  induction z with
  | nil => intro m _ t ht; simp at ht
  | cons a l ih =>
      intro m h t ht
      have hrest : 0 ≤ (l.map fun t => (t - m) ^ 2).sum :=
        List.sum_nonneg (by intro u hu; obtain ⟨v, _, rfl⟩ := List.mem_map.mp hu; positivity)
      have hhead : 0 ≤ (a - m) ^ 2 := by positivity
      simp only [List.map_cons, List.sum_cons] at h
      rcases List.mem_cons.mp ht with rfl | htl
      · have : (t - m) ^ 2 = 0 := le_antisymm (by linarith) hhead
        have := pow_eq_zero_iff (n := 2) (by norm_num) |>.mp this
        linarith [this]
      · exact ih m (le_antisymm (by linarith) hrest) t htl

/-- Cauchy–Schwarz equality case for lists: when `n·Σz² = (Σz)²`, every entry
    equals the mean (this is the "rank-deficient Vandermonde" situation of
    `np.polyfit`). -/
lemma all_eq_of_d_eq_zero (z : List ℚ) (h0 : z.length ≠ 0)
    (hd : (z.length : ℚ) * (z.map fun t => t * t).sum - z.sum * z.sum = 0) :
    ∀ t ∈ z, t = z.sum / (z.length : ℚ) := by
  have hn : (z.length : ℚ) ≠ 0 := Nat.cast_ne_zero.mpr h0
  apply eq_of_sum_sq_zero
  rw [sum_sq_dev]
  field_simp
  nlinarith [hd]

/-- Dot product against a constant-entry list. -/
lemma zipWith_mul_const (m : ℚ) : ∀ (z x : List ℚ), z.length = x.length →
    (∀ t ∈ z, t = m) → (List.zipWith (· * ·) z x).sum = m * x.sum := by
  intro z
  induction z with
  | nil =>
      intro x h _
      have : x = [] := by
        cases x with
        | nil => rfl
        | cons _ _ => simp at h
      subst this; simp
  | cons z0 zs ih =>
      intro x h hall
      cases x with
      | nil => simp at h
      | cons x0 xs =>
          have h' : zs.length = xs.length := by simpa using h
          have hz0 : z0 = m := hall z0 (by simp)
          simp only [List.zipWith_cons_cons, List.sum_cons,
            ih xs h' (fun t ht => hall t (by simp [ht])), hz0]
          ring

/-- Re-fitting the de-chirping residuals gives the exact zero polynomial: the
    heart of the de-chirp idempotence property, covering both the full-rank and
    the rank-deficient branch of `np.polyfit`. -/
lemma polyfit_resid_zero (z x : List ℚ) (p : ℚ × ℚ) (hlen : x.length = z.length)
    (hs : polyfit z x = .ok p) :
    polyfit z (List.zipWith (fun xi zi => xi - (p.1 * zi + p.2)) x z) = .ok (0, 0) := by
  simp only [polyfit] at hs
  split_ifs at hs with h0 hxl hd hSz
  · -- rank-deficient branch: all z equal to a nonzero constant
    rw [Except.ok.injEq] at hs
    subst hs
    have hn : (z.length : ℚ) ≠ 0 := Nat.cast_ne_zero.mpr h0
    have hr : (List.zipWith
        (fun xi zi => xi - ((x.sum / (2 * z.sum), x.sum / (2 * (z.length : ℚ))).1 * zi +
          (x.sum / (2 * z.sum), x.sum / (2 * (z.length : ℚ))).2)) x z).length = z.length := by
      simp [List.length_zipWith, hlen]
    have hsum0 : (List.zipWith
        (fun xi zi => xi - ((x.sum / (2 * z.sum), x.sum / (2 * (z.length : ℚ))).1 * zi +
          (x.sum / (2 * z.sum), x.sum / (2 * (z.length : ℚ))).2)) x z).sum = 0 := by
      rw [resid_sum _ _ x z hlen]
      field_simp
      ring
    simp only [polyfit, if_neg h0, if_neg (not_ne_iff.mpr hr.symm), if_pos hd, if_neg hSz,
      hsum0, zero_div]
  · -- full-rank branch
    rw [Except.ok.injEq] at hs
    subst hs
    have hn : (z.length : ℚ) ≠ 0 :=
      Nat.cast_ne_zero.mpr h0
    set n : ℚ := (z.length : ℚ) with hn_def
    set Sz : ℚ := z.sum with hSz_def
    set Sx : ℚ := x.sum with hSx_def
    set Szz : ℚ := (z.map fun t => t * t).sum with hSzz_def
    set Szx : ℚ := (List.zipWith (· * ·) z x).sum with hSzx_def
    have hr : (List.zipWith
        (fun xi zi => xi - (((n * Szx - Sz * Sx) / (n * Szz - Sz * Sz),
          (Sx * Szz - Sz * Szx) / (n * Szz - Sz * Sz)).1 * zi +
          ((n * Szx - Sz * Sx) / (n * Szz - Sz * Sz),
          (Sx * Szz - Sz * Szx) / (n * Szz - Sz * Sz)).2)) x z).length = z.length := by
      simp [List.length_zipWith, hlen]
    have hsum0 : (List.zipWith
        (fun xi zi => xi - (((n * Szx - Sz * Sx) / (n * Szz - Sz * Sz),
          (Sx * Szz - Sz * Szx) / (n * Szz - Sz * Sz)).1 * zi +
          ((n * Szx - Sz * Sx) / (n * Szz - Sz * Sz),
          (Sx * Szz - Sz * Szx) / (n * Szz - Sz * Sz)).2)) x z).sum = 0 := by
      rw [resid_sum _ _ x z hlen]
      field_simp
      ring
    have hdot0 : (List.zipWith (· * ·) z (List.zipWith
        (fun xi zi => xi - (((n * Szx - Sz * Sx) / (n * Szz - Sz * Sz),
          (Sx * Szz - Sz * Szx) / (n * Szz - Sz * Sz)).1 * zi +
          ((n * Szx - Sz * Sx) / (n * Szz - Sz * Sz),
          (Sx * Szz - Sz * Szx) / (n * Szz - Sz * Sz)).2)) x z)).sum = 0 := by
      rw [resid_dot _ _ x z hlen]
      field_simp
      ring
    simp only [polyfit, if_neg h0, if_neg (not_ne_iff.mpr hr.symm), if_neg hd,
      hsum0, hdot0, zero_div, mul_zero, sub_zero, zero_sub, zero_mul, neg_zero]

/-- Every pair returned by the model of `np.polyfit` satisfies the
    least-squares normal equations exactly: the residuals sum to zero and are
    orthogonal to z.  This holds in the full-rank branch (the unique LS
    solution) and in the rank-deficient branch (numpy's unscaled minimum-norm
    solution, which is still an LS solution). -/
lemma polyfit_normal_equations (z x : List ℚ) (p : ℚ × ℚ) (hlen : x.length = z.length)
    (hs : polyfit z x = .ok p) :
    (List.zipWith (fun xi zi => xi - (p.1 * zi + p.2)) x z).sum = 0 ∧
    (List.zipWith (· * ·) z
      (List.zipWith (fun xi zi => xi - (p.1 * zi + p.2)) x z)).sum = 0 := by
  simp only [polyfit] at hs
  split_ifs at hs with h0 hxl hd hSz
  · -- rank-deficient branch: d = 0, all z equal to the nonzero mean
    rw [Except.ok.injEq] at hs
    have hn : (z.length : ℚ) ≠ 0 := Nat.cast_ne_zero.mpr h0
    have hp1 : p.1 = x.sum / (2 * z.sum) := by rw [← hs]
    have hp2 : p.2 = x.sum / (2 * (z.length : ℚ)) := by rw [← hs]
    have hall := all_eq_of_d_eq_zero z h0 hd
    have hzx := zipWith_mul_const (z.sum / (z.length : ℚ)) z x hlen.symm hall
    have hzz : (z.map fun t => t * t).sum = z.sum * z.sum / (z.length : ℚ) := by
      field_simp
      linear_combination hd
    simp only [hp1, hp2]
    constructor
    · rw [resid_sum _ _ x z hlen]
      field_simp
      ring
    · rw [resid_dot _ _ x z hlen, hzx, hzz]
      field_simp
      ring
  · -- full-rank branch
    rw [Except.ok.injEq] at hs
    have hp1 : p.1 = ((z.length : ℚ) * (List.zipWith (· * ·) z x).sum - z.sum * x.sum) /
        ((z.length : ℚ) * (z.map fun t => t * t).sum - z.sum * z.sum) := by rw [← hs]
    have hp2 : p.2 = (x.sum * (z.map fun t => t * t).sum -
        z.sum * (List.zipWith (· * ·) z x).sum) /
        ((z.length : ℚ) * (z.map fun t => t * t).sum - z.sum * z.sum) := by rw [← hs]
    simp only [hp1, hp2]
    constructor
    · rw [resid_sum _ _ x z hlen]
      field_simp
      ring
    · rw [resid_dot _ _ x z hlen]
      field_simp
      ring

/-- C8: for an ensemble whose chirp fit succeeds, `x_transform` is exactly
    `x - (a·z + b)` with `(a, b)` the fitted slope, and re-running the slope fit
    on `(x_transform, z)` returns exactly `(0, 0)` — zero slope (and zero
    intercept) in exact arithmetic. -/
theorem dechirp_refit_zero (b : Beam) (p : ℚ × ℚ)
    (hN : 2 ≤ b.particle.z.length)
    (hlen : b.particle.x.length = b.particle.z.length)
    (hs : Beam.slope b = .ok p) :
    Beam.x_transform b = .ok (List.zipWith (fun xi zi => xi - (p.1 * zi + p.2))
        b.particle.x b.particle.z) ∧
    polyfit b.particle.z
        (List.zipWith (fun xi zi => xi - (p.1 * zi + p.2)) b.particle.x b.particle.z)
      = .ok (0, 0) :=
  ⟨by simp [Beam.x_transform, hs], polyfit_resid_zero _ _ p hlen hs⟩

/-- Witness for C8: the 3-particle perfectly correlated ensemble de-chirps to
    `[0,0,0]` and its re-fit is exactly `(0, 0)`. -/
theorem dechirp_refit_zero_witness :
    ∃ xt, Beam.x_transform beam3 = .ok xt ∧
      polyfit beam3.particle.z xt = .ok (0, 0) := by
  have h := dechirp_refit_zero beam3 (1, 0) (by decide) (by decide)
    (by norm_num [Beam.slope, polyfit, beam3, particle3])
  exact ⟨_, h.1, h.2⟩

/-- Counterexample for C6: a single-particle ensemble (`N = 1 < 2`).  The
    source raises no error: `np.polyfit` merely warns about the deficient rank
    and returns its minimum-norm solution, here `(1/2, 1)` for the point
    `(z, x) = (2, 2)`. -/
theorem slope_single_particle_no_error :
    beam1.particle.z.length < 2 ∧ Beam.slope beam1 = .ok (1/2, 1) := by
  refine ⟨by decide, ?_⟩
  norm_num [Beam.slope, polyfit, beam1, particle1]

/-- C6 (amended): for equal-length coordinate arrays, the `slope` query fails
    exactly when the ensemble is empty (`N = 0`: numpy rejects the empty fit
    vector) or every z coordinate is zero (numpy's LinAlgError on the zero-norm
    scaled Vandermonde column) — in particular it succeeds for every `N ≥ 2`
    ensemble whose z values are not all zero, and it never raises an
    `InsufficientDataError` for `N < 2`: a single particle `(z₀, x₀)` with
    `z₀ ≠ 0` succeeds, returning numpy's minimum-norm solution
    `(x₀/(2·z₀), x₀/2)`.  Whenever the fit succeeds, the returned pair
    satisfies the degree-1 least-squares normal equations exactly. -/
theorem slope_fit_characterization (b : Beam)
    (hlen : b.particle.x.length = b.particle.z.length) :
    ((∃ e, Beam.slope b = .error e) ↔
      (b.particle.z.length = 0 ∨ ∀ t ∈ b.particle.z, t = 0)) ∧
    (∀ p : ℚ × ℚ, Beam.slope b = .ok p →
      (List.zipWith (fun xi zi => xi - (p.1 * zi + p.2))
        b.particle.x b.particle.z).sum = 0 ∧
      (List.zipWith (· * ·) b.particle.z
        (List.zipWith (fun xi zi => xi - (p.1 * zi + p.2))
          b.particle.x b.particle.z)).sum = 0) ∧
    (∀ z0 x0 : ℚ, b.particle.z = [z0] → b.particle.x = [x0] → z0 ≠ 0 →
      Beam.slope b = .ok (x0 / (2 * z0), x0 / 2)) := by
  refine ⟨⟨?_, ?_⟩, ?_, ?_⟩
  · rintro ⟨e, he⟩
    simp only [Beam.slope, polyfit] at he
    split_ifs at he with h0 hxl hd hSz
    · exact Or.inl h0
    · exact absurd hlen.symm hxl
    · refine Or.inr fun t ht => ?_
      have hmean := all_eq_of_d_eq_zero b.particle.z h0 hd t ht
      rw [hmean, hSz, zero_div]
  · rintro (h0 | hall)
    · exact ⟨.emptyVector, by simp [Beam.slope, polyfit, h0]⟩
    · by_cases h0 : b.particle.z.length = 0
      · exact ⟨.emptyVector, by simp [Beam.slope, polyfit, h0]⟩
      · refine ⟨.svdNoConvergence, ?_⟩
        have hSz : b.particle.z.sum = 0 := List.sum_eq_zero hall
        have hSzz : (b.particle.z.map fun t => t * t).sum = 0 :=
          List.sum_eq_zero (by
            intro u hu
            obtain ⟨v, hv, rfl⟩ := List.mem_map.mp hu
            rw [hall v hv, mul_zero])
        simp [Beam.slope, polyfit, h0, hSz, hSzz, hlen]
  · intro p hsp
    exact polyfit_normal_equations b.particle.z b.particle.x p hlen hsp
  · intro z0 x0 hz0 hx0 hz0ne
    simp [Beam.slope, polyfit, hz0, hx0, hz0ne, mul_one]

/-- Witness for C6's amended theorem: the empty ensemble fails, and the
    single-particle ensemble `beam1` at `(z, x) = (2, 2)` succeeds with numpy's
    minimum-norm solution. -/
theorem slope_fit_characterization_witness :
    (∃ e, Beam.slope beam0 = .error e) ∧
    Beam.slope beam1 = .ok (2 / (2 * 2), 2 / 2) :=
  ⟨((slope_fit_characterization beam0 rfl).1).mpr (Or.inl rfl),
   (slope_fit_characterization beam1 rfl).2.2 2 2 rfl rfl (by norm_num)⟩

/-- A successful dictionary lookup implies key membership. -/
lemma hasKey_of_lookup {d : InputBeam} {k : String} {v : BVal}
    (h : lookupB d k = .ok v) : hasKey d k = true := by
  simp only [lookupB] at h
  cases hf : d.find? (fun kv => kv.1 = k) with
  | none => rw [hf] at h; simp at h
  | some kv =>
      rw [hasKey, List.any_eq_true]
      refine ⟨kv, List.mem_of_find?_eq_some hf, ?_⟩
      simpa using List.find?_some hf

/-- Reduction of `check_inputs` for the `from_file` style. -/
lemma check_inputs_from_file (d : InputBeam)
    (hstyle : lookupB d "style" = .ok (.str "from_file")) :
    check_inputs d =
      (match (d.map Prod.fst).find?
          (fun k => !(["style", "beamfile", "charge", "energy", "verbose"].contains k)) with
       | some k => .error (.unexpectedParam k)
       | none =>
         match ["style", "beamfile", "charge", "energy"].find? (fun r => ! hasKey d r) with
         | some r => .error (.missingParam r)
         | none => .ok ["style", "beamfile", "charge", "energy"]) := by
  have hstylekey : hasKey d "style" = true := hasKey_of_lookup hstyle
  simp [check_inputs, hstylekey, hstyle, required_inputs_for]

/-- Reduction of `check_inputs` for the `ParticleGroup` style. -/
lemma check_inputs_pg (d : InputBeam)
    (hstyle : lookupB d "style" = .ok (.str "ParticleGroup")) :
    check_inputs d =
      (match (d.map Prod.fst).find?
          (fun k => !(["style", "particleGroup_h5", "verbose"].contains k)) with
       | some k => .error (.unexpectedParam k)
       | none =>
         match ["style", "particleGroup_h5"].find? (fun r => ! hasKey d r) with
         | some r => .error (.missingParam r)
         | none => .ok ["style", "particleGroup_h5"]) := by
  have hstylekey : hasKey d "style" = true := hasKey_of_lookup hstyle
  simp [check_inputs, hstylekey, hstyle, required_inputs_for]

/-- C7: for `from_file`-style construction input, a coordinate table that does
    not have exactly six columns per row fails the six-column assert; a missing
    required field or an unrecognized field fails the corresponding
    `check_inputs` assert.  All three are construction-time configuration
    errors (`isConfig`), raised before any beam is built. -/
theorem from_file_config_errors (files : String → List (List ℚ)) (d : InputBeam)
    (hstyle : lookupB d "style" = .ok (.str "from_file")) :
    (∀ (r : List String) (f : String) (rows c : ℕ),
      check_inputs d = .ok r → lookupB d "beamfile" = .ok (.str f) →
      loadtxtShape (files f) = some (rows, c) → c ≠ 6 →
      beam_init files d = .error (.assertColumns c) ∧
        (PyErr.assertColumns c).isConfig = true) ∧
    ((∃ rq ∈ ["style", "beamfile", "charge", "energy"], hasKey d rq = false) →
      (∀ k ∈ d.map Prod.fst, k ∈ ["style", "beamfile", "charge", "energy", "verbose"]) →
      ∃ rq, beam_init files d = .error (.missingParam rq) ∧
        (PyErr.missingParam rq).isConfig = true) ∧
    ((∃ k ∈ d.map Prod.fst, k ∉ ["style", "beamfile", "charge", "energy", "verbose"]) →
      ∃ k, beam_init files d = .error (.unexpectedParam k) ∧
        (PyErr.unexpectedParam k).isConfig = true) := by
  refine ⟨?_, ?_, ?_⟩
  · intro r f rows c hchk hbf hshape hc
    refine ⟨?_, rfl⟩
    simp [beam_init, hchk, hstyle, hbf, hshape, hc]
  · intro hmiss hall
    have hnone : (d.map Prod.fst).find?
        (fun k => !(["style", "beamfile", "charge", "energy", "verbose"].contains k)) = none := by
      rw [List.find?_eq_none]
      intro k hk
      have := hall k hk
      simp [this]
    have hsome : (["style", "beamfile", "charge", "energy"].find?
        (fun rq => ! hasKey d rq)).isSome := by
      rw [List.find?_isSome]
      obtain ⟨rq, hrqmem, hrqfalse⟩ := hmiss
      exact ⟨rq, hrqmem, by simp [hrqfalse]⟩
    obtain ⟨rq', hfind⟩ := Option.isSome_iff_exists.mp hsome
    have hchk : check_inputs d = .error (.missingParam rq') := by
      rw [check_inputs_from_file d hstyle, hnone, hfind]
    exact ⟨rq', by simp [beam_init, hchk], rfl⟩
  · intro hbad
    have hsome : ((d.map Prod.fst).find?
        (fun k => !(["style", "beamfile", "charge", "energy", "verbose"].contains k))).isSome := by
      rw [List.find?_isSome]
      obtain ⟨k, hkmem, hknot⟩ := hbad
      refine ⟨k, hkmem, ?_⟩
      simpa using hknot
    obtain ⟨k', hfind⟩ := Option.isSome_iff_exists.mp hsome
    have hchk : check_inputs d = .error (.unexpectedParam k') := by
      rw [check_inputs_from_file d hstyle, hfind]
    exact ⟨k', by simp [beam_init, hchk], rfl⟩

/-- Witness for C7: a 5-column table, a dictionary missing `energy`, and a
    dictionary with an extra field all abort construction. -/
theorem from_file_config_errors_witness :
    beam_init files5 d_ff = .error (.assertColumns 5) ∧
    (∃ rq, beam_init files5 d_miss = .error (.missingParam rq)) ∧
    (∃ k, beam_init files5 d_extra = .error (.unexpectedParam k)) := by
  refine ⟨?_, ?_, ?_⟩
  · exact ((from_file_config_errors files5 d_ff rfl).1
      ["style", "beamfile", "charge", "energy"] "beam.dat" 2 5 rfl rfl rfl (by decide)).1
  · obtain ⟨rq, h, _⟩ := (from_file_config_errors files5 d_miss rfl).2.1
      ⟨"energy", by decide, by decide⟩ (by decide)
    exact ⟨rq, h⟩
  · obtain ⟨k, h, _⟩ := (from_file_config_errors files5 d_extra rfl).2.2
      ⟨"extra", by decide, by decide⟩
    exact ⟨k, h⟩

/-- C10: a `ParticleGroup`-style dictionary whose keys are exactly the
    validated ones (`style`, `particleGroup_h5`, optionally `verbose`) passes
    `check_inputs`, but construction then dies with a `KeyError`: the
    constructor reads `input_beam['ParticleGroup_h5']` while validation required
    the differently capitalized `particleGroup_h5` (and rejects the capitalized
    spelling as an unrecognized parameter). -/
theorem particlegroup_key_bug (files : String → List (List ℚ)) (d : InputBeam)
    (hstyle : lookupB d "style" = .ok (.str "ParticleGroup"))
    (hsub : ∀ k ∈ d.map Prod.fst, k ∈ ["style", "particleGroup_h5", "verbose"])
    (hreq : hasKey d "particleGroup_h5" = true) :
    check_inputs d = .ok ["style", "particleGroup_h5"] ∧
    beam_init files d = .error (.keyError "ParticleGroup_h5") := by
  have hnone : (d.map Prod.fst).find?
      (fun k => !(["style", "particleGroup_h5", "verbose"].contains k)) = none := by
    rw [List.find?_eq_none]
    intro k hk
    have := hsub k hk
    simp [this]
  have hstylekey : hasKey d "style" = true := hasKey_of_lookup hstyle
  have hreqnone : (["style", "particleGroup_h5"].find? (fun r => ! hasKey d r)) = none := by
    rw [List.find?_eq_none]
    intro r hr
    rcases List.mem_cons.mp hr with rfl | hr2
    · simp [hstylekey]
    · rcases List.mem_cons.mp hr2 with rfl | hr3
      · simp [hreq]
      · simp at hr3
  have hchk : check_inputs d = .ok ["style", "particleGroup_h5"] := by
    rw [check_inputs_pg d hstyle, hnone, hreqnone]
  refine ⟨hchk, ?_⟩
  have hlook : lookupB d "ParticleGroup_h5" = .error (.keyError "ParticleGroup_h5") := by
    have hfnone : d.find? (fun kv => kv.1 = "ParticleGroup_h5") = none := by
      rw [List.find?_eq_none]
      intro kv hkv
      have hmem := hsub kv.1 (List.mem_map_of_mem Prod.fst hkv)
      simp only [List.mem_cons, List.not_mem_nil, or_false] at hmem
      rcases hmem with h1 | h1 | h1 <;> simp [h1]
    simp [lookupB, hfnone]
  simp [beam_init, hchk, hstyle, hlook]

/-- Witness for C10: the two-key dictionary `d_pg` validates and then fails
    with the capitalized `KeyError`. -/
theorem particlegroup_key_bug_witness :
    check_inputs d_pg = .ok ["style", "particleGroup_h5"] ∧
    beam_init (fun _ => []) d_pg = .error (.keyError "ParticleGroup_h5") :=
  particlegroup_key_bug (fun _ => []) d_pg rfl (by decide) (by decide)

end PyDFCSR
